import Mathlib

set_option maxRecDepth 8000

/-!
Verification of the rule-generation core of `app.py` (mortgage rule generator).

The development shallowly embeds the program's data and operations:
JSON dictionaries that the program manipulates are modelled as structures
with `Option`-typed fields (a `none` field models an absent key), the fixed
registry `CSV_STRUCTURES` and the derived `COLUMN_MAPPING` are translated
verbatim, and the external collaborators (the Groq chat API and the Python
`json` module) are passed in as explicit parameters, since their outputs are
the only thing the core observes about them.
-/

/-- The fixed Schema Registry of `app.py` (`CSV_STRUCTURES`): each data source
with its exact column names, in source order. -/
def CSV_STRUCTURES : List (String × List String) :=
  [("sample_mortgage_accounts.csv",
      ["customer_id", "account_status", "loan_amount", "interest_rate", "start_date", "term"]),
   ("sample_loan_repayments.csv",
      ["transaction_id", "customer_id", "payment_amount", "payment_date", "loan_id", "status"]),
   ("sample_telco_billing.csv",
      ["bill_id", "customer_id", "amount", "due_date", "paid_date", "service_type"]),
   ("sample_product_enrollments.csv",
      ["enrollment_id", "customer_id", "product_id", "enrollment_date", "status"]),
   ("sample_customer_profiles.csv",
      ["customer_id", "name", "age", "income", "credit_score", "address"]),
   ("sample_savings_account_transactions.csv",
      ["transaction_id", "account_id", "customer_id", "amount", "date", "transaction_type"]),
   ("sample_credit_card_transactions.csv",
      ["transaction_id", "card_id", "customer_id", "amount", "date", "merchant", "category"])]

/-- Python `str.lower` (character-wise lowercasing, as in CPython for the
ASCII identifiers this program handles). -/
def pyToLower (s : String) : String := String.mk (s.toList.map Char.toLower)

/-- The lowercase-field to canonical-field mapping of `app.py`
(`COLUMN_MAPPING`), built once over all sources' columns in registry order.
The Python dict is modelled as the insertion-ordered association list. -/
def COLUMN_MAPPING : List (String × String) :=
  CSV_STRUCTURES.foldl (fun acc p => acc ++ p.2.map (fun col => (pyToLower col, col))) []

/-- Python dict lookup `COLUMN_MAPPING[key]`: in a dict a later insertion
overwrites an earlier one, so the last matching pair wins. -/
def columnMappingLookup (key : String) : Option String :=
  Option.map Prod.snd (COLUMN_MAPPING.reverse.find? (fun p => p.1 == key))

/-- Python `COLUMN_MAPPING.values()` (as a list; membership agrees with the
dict because duplicate keys in the build always carry equal values). -/
def columnMappingValues : List String := COLUMN_MAPPING.map Prod.snd

/-- All column names across all sources of the registry. -/
def allColumns : List String := (CSV_STRUCTURES.map Prod.snd).flatten

/-- Registry lookup of one source's column list (`CSV_STRUCTURES.get`-style
access used throughout `app.py`). -/
def lookupSource (ds : String) : Option (List String) :=
  Option.map Prod.snd (CSV_STRUCTURES.find? (fun p => p.1 == ds))

/-- Python's substring containment `needle in haystack`, on character lists. -/
def substrAux : List Char → List Char → Bool
  | n, [] => n.isEmpty
  | n, c :: rest => n.isPrefixOf (c :: rest) || substrAux n rest

/-- Python's substring containment test on strings. -/
def pySubstr (needle haystack : String) : Bool :=
  substrAux needle.toList haystack.toList

/-- The fixed alias table of `correct_column_name` (`variations` in `app.py`),
in Python dict insertion order, which is the iteration order. -/
def variations : List (String × String) :=
  [("id", "customer_id"),
   ("payment", "payment_amount"),
   ("date", "payment_date"),
   ("status", "account_status"),
   ("amount", "payment_amount"),
   ("score", "credit_score"),
   ("type", "transaction_type"),
   ("transaction", "amount"),
   ("spend", "amount"),
   ("minutes", "service_type")]

/-- Translation of `app.py` `correct_column_name`: convert a field name to an exact column
name.  A falsy (empty) name is returned as is; an exact column name is kept;
otherwise a case-insensitive lookup is tried, then the first alias whose key
is a substring of the lowercased name, and finally the name is returned
unchanged. -/
def correct_column_name (field_name : String) : String :=
  if field_name = "" then field_name
  else if field_name ∈ columnMappingValues then field_name
  else
    let lower_name := pyToLower field_name
    match columnMappingLookup lower_name with
    | some canonical => canonical
    | none =>
      match variations.find? (fun pr => substrAux pr.1.toList lower_name.toList) with
      | some pr => pr.2
      | none => field_name

/-- A condition dictionary as it appears inside a conditionGroup's
`conditions` list.  Each key of the JSON object is an `Option` field;
`none` models an absent key. -/
structure Cnd where
  id : Option String
  dataSource : Option String
  field : Option String
  eligibilityPeriod : Option String
  function : Option String
  operator : Option String
  value : Option String
  priority : Option Int
  ruleType : Option String
  connector : Option String
deriving DecidableEq, Repr

/-- A top-level rule node dictionary: a bare condition or a conditionGroup
(the schema's `conditions` key is only used on conditionGroups). -/
structure RuleItem where
  id : Option String
  dataSource : Option String
  field : Option String
  eligibilityPeriod : Option String
  function : Option String
  operator : Option String
  value : Option String
  priority : Option Int
  ruleType : Option String
  connector : Option String
  conditions : Option (List Cnd)
deriving DecidableEq, Repr

/-- The top-level JSON object returned by `json.loads`: an optional `rules`
key plus the remaining keys (only their presence matters to the program,
via dict truthiness). -/
structure ParsedRule where
  rules : Option (List RuleItem)
  extra : List String
deriving DecidableEq, Repr

/-- The test `rule_item.get("ruleType") == "conditionGroup"`, the discriminator used by
both passes of the validator. -/
def isGroup (x : RuleItem) : Bool := x.ruleType == some "conditionGroup"

/-- The first-pass mutation on one condition of a conditionGroup:
`condition["field"] = correct_column_name(condition.get("field", ""))`. -/
def correctCnd (c : Cnd) : Cnd :=
  { c with field := some (correct_column_name (c.field.getD "")) }

/-- The first-pass mutation on one top-level rule node of
`validate_and_correct_columns`: a conditionGroup has each condition's field
corrected; any other node has its own field corrected. -/
def correctRuleItem (x : RuleItem) : RuleItem :=
  if isGroup x then
    { x with conditions := x.conditions.map (fun cs => cs.map correctCnd) }
  else
    { x with field := some (correct_column_name (x.field.getD "")) }

/-- Translation of `app.py` `validate_and_correct_columns`: returns the argument unchanged
when it is `None` or lacks a `rules` key; otherwise corrects every referenced
field (first pass) and, when at least one conditionGroup is present among the
top-level rules, keeps only the conditionGroups (second pass). -/
def validate_and_correct_columns (rule : Option ParsedRule) : Option ParsedRule :=
  match rule with
  | none => none
  | some r =>
    match r.rules with
    | none => some r
    | some rs0 =>
      let rs := rs0.map correctRuleItem
      let condition_group_exists := rs.any isGroup
      let new_rules := if condition_group_exists then rs.filter isGroup else rs
      some { r with rules := some new_rules }

/-- Python `str.find c` on character lists: index of the first occurrence. -/
def pyFindChar : List Char → Char → Option Nat
  | [], _ => none
  | c :: cs, t => if c = t then some 0 else Option.map (fun n => n + 1) (pyFindChar cs t)

/-- The JSON-span extraction of `generate_rule_with_llama` (lines 190-196):
`json_start = response.find('{')`, `json_end = response.rfind('}') + 1`; when
either brace is missing the response is rejected, otherwise the slice
`response[json_start:json_end]` is returned. -/
def extract_json_span (s : String) : Option String :=
  match pyFindChar s.toList '{', pyFindChar s.toList.reverse '}' with
  | some i, some k =>
    some (String.mk ((s.toList.drop i).take (s.toList.length - 1 - k + 1 - i)))
  | some _, none => none
  | none, _ => none

/-- Outcome of the external chat-completion call: the raw response text, or a
transport failure (any exception raised by the client). -/
inductive ApiResult where
  | ok (content : String) : ApiResult
  | error : ApiResult
deriving DecidableEq, Repr

/-- Translation of `app.py` `generate_rule_with_llama`, with the two external collaborators
passed in: `api` is the outcome of the chat-completion call and `parseJson`
stands for `json.loads` restricted to the top-level shapes the program
handles (`none` models a raised `JSONDecodeError`, `some none` a JSON null,
`some (some r)` a JSON object).  Every failure is caught and yields `none`,
exactly as the function's `try`/`except` returns `None` after `st.error`. -/
def generate_rule_with_llama (api : ApiResult)
    (parseJson : String → Option (Option ParsedRule)) : Option ParsedRule :=
  match api with
  | ApiResult.error => none
  | ApiResult.ok response_content =>
    match extract_json_span response_content with
    | none => none
    | some json_str =>
      match parseJson json_str with
      | none => none
      | some rule => validate_and_correct_columns rule

/-- One entry of the conversation history (`st.session_state.messages`). -/
structure ChatMessage where
  role : String
  content : String
deriving DecidableEq, Repr

/-- The per-session conversation state of `app.py` (`st.session_state`). -/
structure SessionState where
  messages : List ChatMessage
  current_rule : Option ParsedRule
  confirmed : Bool
  user_prompt : String
  awaiting_confirmation : Bool
  awaiting_modification : Bool
deriving DecidableEq, Repr

/-- Python `str.split()` with no separator: split on whitespace runs (the
accumulator holds the current word reversed). -/
def splitWsAux : List Char → List Char → List (List Char)
  | [], acc => [acc.reverse]
  | c :: rest, acc =>
    if c.isWhitespace then acc.reverse :: splitWsAux rest []
    else splitWsAux rest (c :: acc)

/-- Python `str.replace pat rep`: scan left to right, replacing each
non-overlapping occurrence.  The fuel argument (instantiated with the list's
length, an upper bound on the number of scan steps) keeps the recursion
structural. -/
def pyReplace (pat rep : List Char) : Nat → List Char → List Char
  | _, [] => []
  | 0, l => l
  | fuel + 1, c :: rest =>
    if pat.isPrefixOf (c :: rest) then
      rep ++ pyReplace pat rep fuel ((c :: rest).drop pat.length)
    else
      c :: pyReplace pat rep fuel rest

/-- Translation of `app.py` `clean_user_input`: collapse whitespace runs
(`' '.join(text.split())`), then repair the spaced-out renderings of "on",
"AND" and "OR". -/
def clean_user_input (text : String) : String :=
  let words := (splitWsAux text.toList []).filter (fun w => !w.isEmpty)
  let t := List.intercalate [' '] words
  let t1 := pyReplace " o n ".toList " on ".toList t.length t
  let t2 := pyReplace " A N D ".toList " AND ".toList t1.length t1
  let t3 := pyReplace " O R ".toList " OR ".toList t2.length t2
  String.mk t3

/-- The assistant message appended by the failure branch of
`generate_new_rule`. -/
def failText : String :=
  "I couldn\x27t generate a valid rule. Could you please provide more details?"

/-- Translation of `app.py` `handle_user_confirmation`: on an affirmative reply mark the rule
confirmed and leave the confirmation phase; otherwise move to the
modification phase.  Either way exactly one assistant message is appended. -/
def handle_user_confirmation (s : SessionState) (confirmation : Bool) : SessionState :=
  if confirmation then
    { s with confirmed := true, awaiting_confirmation := false,
             messages := s.messages ++
               [ChatMessage.mk "assistant" "Great! Here\x27s your final rule:"] }
  else
    { s with awaiting_confirmation := false, awaiting_modification := true,
             messages := s.messages ++
               [ChatMessage.mk "assistant" "What changes would you like to make to the rule?"] }

/-- Translation of `app.py` `generate_new_rule`, with the outcome of
`generate_rule_with_llama` passed in as `new_rule` (the call itself is the
external-model boundary) and `dumps` standing for `json.dumps` in the rule
preview.  A truthy result (a non-empty dict) is stored as the current rule
and the state moves to the confirmation phase; a falsy result (`None` or an
empty dict) only appends the failure message. -/
def generate_new_rule (dumps : ParsedRule → String) (s : SessionState)
    (new_rule : Option ParsedRule) : SessionState :=
  match new_rule with
  | some p =>
    if p.rules.isSome || !p.extra.isEmpty then
      { s with current_rule := some p,
               messages := s.messages ++
                 [ChatMessage.mk "assistant"
                   ("I\x27ve generated this rule:\n\n```json\n" ++ dumps p ++
                    "\n```\n\nDoes this meet your requirements?")],
               awaiting_confirmation := true,
               awaiting_modification := false }
    else
      { s with messages := s.messages ++ [ChatMessage.mk "assistant" failText] }
  | none =>
    { s with messages := s.messages ++ [ChatMessage.mk "assistant" failText] }

/-- The chat-input dispatcher of `main` (lines 491-523): the user message is
cleaned and appended, then the current flags select the action.  `genResult`
is the outcome of the `generate_rule_with_llama` call made by
`generate_new_rule` on the branches that generate. -/
def handle_chat_input (dumps : ParsedRule → String) (genResult : Option ParsedRule)
    (s : SessionState) (prompt : String) : SessionState :=
  let cleaned := clean_user_input prompt
  let s1 := { s with messages := s.messages ++ [ChatMessage.mk "user" cleaned] }
  if s1.user_prompt = "" then
    generate_new_rule dumps { s1 with user_prompt := cleaned } genResult
  else if s1.awaiting_confirmation then
    if pySubstr "yes" (pyToLower cleaned) || pySubstr "correct" (pyToLower cleaned) then
      handle_user_confirmation s1 true
    else
      handle_user_confirmation s1 false
  else if s1.awaiting_modification then
    generate_new_rule dumps s1 genResult
  else
    generate_new_rule dumps
      { s1 with user_prompt := cleaned, current_rule := none, confirmed := false }
      genResult

/-- The conversation phases named by the specification. -/
inductive Phase where
  | AWAITING_FIRST_INPUT : Phase
  | AWAITING_CONFIRMATION : Phase
  | AWAITING_MODIFICATION : Phase
  | IDLE_WITH_RULE : Phase
deriving DecidableEq, Repr

/-- Modelled from the spec: the specification's phase of a session state.
The code stores the phase as the flags `awaiting_confirmation`,
`awaiting_modification` and `confirmed`; the spec names the four phases, and
this is the evident reading of the flags as a phase. -/
def phase (s : SessionState) : Phase :=
  if s.awaiting_confirmation then Phase.AWAITING_CONFIRMATION
  else if s.awaiting_modification then Phase.AWAITING_MODIFICATION
  else if s.confirmed then Phase.IDLE_WITH_RULE
  else Phase.AWAITING_FIRST_INPUT

/-- Resolution of one referenced (dataSource, field) pair against the Schema
Registry, in the sense of the specification's invariant: the source must be a
registry key, and a non-empty field must be one of its columns (an absent or
empty field is permitted by the spec's data model). -/
def condResolves (ds fl : Option String) : Bool :=
  match ds with
  | none => false
  | some d =>
    match lookupSource d with
    | none => false
    | some cols =>
      match fl with
      | none => true
      | some f => f = "" || f ∈ cols

/-- Resolution of every (dataSource, field) pair referenced by one top-level
rule node: a conditionGroup is checked through its conditions list, any other
node through its own reference. -/
def itemResolves (x : RuleItem) : Bool :=
  if isGroup x then (x.conditions.getD []).all (fun c => condResolves c.dataSource c.field)
  else condResolves x.dataSource x.field

/-- Resolution of every (dataSource, field) pair referenced anywhere in a
RuleSet (top level or inside any conditionGroup's conditions list). -/
def refsResolve (r : ParsedRule) : Bool :=
  (r.rules.getD []).all itemResolves

/-- Validity of one referenced pair in the strong sense of claim C5: the
field is present and an exact column name of its (known) data source. -/
def condValid (ds fl : Option String) : Bool :=
  match ds, fl with
  | some d, some f =>
    match lookupSource d with
    | none => false
    | some cols => f ∈ cols
  | _, _ => false

/-- Validity of one top-level rule node in the sense of claim C5. -/
def itemValid (x : RuleItem) : Bool :=
  if isGroup x then (x.conditions.getD []).all (fun c => condValid c.dataSource c.field)
  else condValid x.dataSource x.field

/-- The nine scalar keys of a condition other than `field`, used to state
that the validator preserves them verbatim. -/
def cndScalars (c : Cnd) :
    Option String × Option String × Option String × Option String × Option String ×
      Option String × Option Int × Option String × Option String :=
  (c.id, c.dataSource, c.eligibilityPeriod, c.function, c.operator, c.value,
   c.priority, c.ruleType, c.connector)

/-- The nine scalar keys of a top-level rule node other than `field`. -/
def itemScalars (x : RuleItem) :
    Option String × Option String × Option String × Option String × Option String ×
      Option String × Option Int × Option String × Option String :=
  (x.id, x.dataSource, x.eligibilityPeriod, x.function, x.operator, x.value,
   x.priority, x.ruleType, x.connector)

/-- A valid bare condition over the registry (used as a concrete input). -/
def sampleBareValid : RuleItem :=
  ⟨some "r1", some "sample_customer_profiles.csv", some "income", some "N/A",
   some "N/A", some ">", some "1000", none, some "condition", none, none⟩

/-- A valid condition for a conditionGroup (used as a concrete input). -/
def sampleCndValid : Cnd :=
  ⟨some "c1", some "sample_loan_repayments.csv", some "payment_amount",
   some "Rolling 30 days", some "sum", some ">", some "500", none,
   some "condition", none⟩

/-- A valid conditionGroup over the registry (used as a concrete input). -/
def sampleGroupValid : RuleItem :=
  ⟨some "g1", none, none, none, none, none, none, none, some "conditionGroup",
   some "AND", some [sampleCndValid]⟩

/-- A RuleSet with one top-level bare condition and one conditionGroup. -/
def mixedRuleSet : ParsedRule := ⟨some [sampleBareValid, sampleGroupValid], []⟩

/-- A RuleSet containing only a valid conditionGroup. -/
def validRuleSet : ParsedRule := ⟨some [sampleGroupValid], []⟩

/-- A bare condition referencing an unknown data source and an uncorrectable
unknown field. -/
def badCondition : RuleItem :=
  ⟨some "b1", some "nonexistent.csv", some "zzz", some "N/A", some "N/A",
   some "=", some "1", none, some "condition", none, none⟩

/-- A RuleSet whose only reference does not resolve against the registry. -/
def badRuleSet : ParsedRule := ⟨some [badCondition], []⟩

/-- A parsed JSON object with no `rules` key but one other key. -/
def noRulesDict : ParsedRule := ⟨none, ["explanation"]⟩

/-- The parsed empty JSON object. -/
def emptyDict : ParsedRule := ⟨none, []⟩

/-- A condition dictionary whose `field` key is missing. -/
def emptyFieldCnd : Cnd :=
  ⟨some "c9", some "sample_telco_billing.csv", none, none, none, none, none,
   none, some "condition", none⟩

/-- A top-level bare condition whose `field` key is missing. -/
def emptyFieldItem : RuleItem :=
  ⟨some "r9", some "sample_telco_billing.csv", none, none, none, none, none,
   none, some "condition", none, none⟩

/-- A concrete session state sitting in the confirmation phase. -/
def sampleConfirmState : SessionState :=
  ⟨[ChatMessage.mk "assistant" "Does this meet your requirements?"],
   some validRuleSet, false, "customers with balance over 1000", true, false⟩

/-- A concrete session state at the start of a conversation. -/
def sampleFreshState : SessionState :=
  ⟨[ChatMessage.mk "assistant"
      "Hello! I can help you create mortgage holder rules. What criteria would you like to use?"],
   none, false, "", false, false⟩

/-! ### Facts about the fixed registry, checked by evaluation -/

/-- Every column name of the registry is already lowercase. -/
theorem allColumns_lower : ∀ c ∈ allColumns, pyToLower c = c := by decide

/-- The empty string is not a column name of any source. -/
theorem empty_not_mem_allColumns : "" ∉ allColumns := by decide

/-- Every column name occurs among the values of `COLUMN_MAPPING`. -/
theorem mem_values_of_mem_allColumns : ∀ c ∈ allColumns, c ∈ columnMappingValues := by
  decide

/-- Every pair of `COLUMN_MAPPING` maps a column name to itself. -/
theorem mapping_pairs : ∀ p ∈ COLUMN_MAPPING, p.1 = p.2 ∧ p.2 ∈ allColumns := by
  decide

/-- Every column name appears as a key (paired with itself) in
`COLUMN_MAPPING`. -/
theorem mapping_complete : ∀ c ∈ allColumns, (c, c) ∈ COLUMN_MAPPING := by decide

/-- Every value of the alias table is a column name of some source. -/
theorem variations_vals : ∀ pr ∈ variations, pr.2 ∈ allColumns := by decide

/-- Every column of every registry source occurs in `allColumns`. -/
theorem source_cols_sub : ∀ pr ∈ CSV_STRUCTURES, ∀ c ∈ pr.2, c ∈ allColumns := by
  decide

/-! ### Generic list helper -/

/-- The function `List.find?` returns the first element of the list satisfying the predicate. -/
theorem find?_first {α : Type} (p : α → Bool) (l1 l2 : List α) (a : α)
    (h1 : ∀ x ∈ l1, p x = false) (ha : p a = true) :
    (l1 ++ a :: l2).find? p = some a := by
  induction l1 with
  | nil => simp [List.find?, ha]
  | cons b t ih =>
    have hb : p b = false := h1 b (by simp)
    simp only [List.cons_append, List.find?, hb]
    exact ih (fun x hx => h1 x (by simp [hx]))

/-! ### The case-insensitive lookup -/

/-- A successful `COLUMN_MAPPING` lookup returns its own key, which is a
column name (all registry columns are lowercase and map to themselves). -/
theorem columnMappingLookup_eq_some (key c : String)
    (h : columnMappingLookup key = some c) : c ∈ allColumns ∧ c = key := by
  unfold columnMappingLookup at h
  cases hf : COLUMN_MAPPING.reverse.find? (fun p => p.1 == key) with
  | none => rw [hf] at h; simp at h
  | some pair =>
    rw [hf] at h
    simp only [Option.map_some'] at h
    have hmem : pair ∈ COLUMN_MAPPING := List.mem_reverse.mp (List.mem_of_find?_eq_some hf)
    have hkey : pair.1 = key := by
      have := List.find?_some hf
      simpa using this
    obtain ⟨he, hc⟩ := mapping_pairs pair hmem
    have hc2 : c = pair.2 := (Option.some.inj h).symm
    subst hc2
    exact ⟨hc, by rw [← he, hkey]⟩

/-- Lookup of a key that is itself a column name succeeds with that key. -/
theorem columnMappingLookup_of_mem (key : String) (h : key ∈ allColumns) :
    columnMappingLookup key = some key := by
  have hpair : (key, key) ∈ COLUMN_MAPPING.reverse := List.mem_reverse.mpr (mapping_complete key h)
  have hsome : (COLUMN_MAPPING.reverse.find? (fun p => p.1 == key)).isSome := by
    rw [List.find?_isSome]
    exact ⟨(key, key), hpair, by simp⟩
  obtain ⟨pair, hpf⟩ := Option.isSome_iff_exists.mp hsome
  have hlk : columnMappingLookup key = some pair.2 := by
    unfold columnMappingLookup; rw [hpf]; rfl
  obtain ⟨_, hk⟩ := columnMappingLookup_eq_some key pair.2 hlk
  rw [hlk, hk]

/-- When no column name equals the key, the lookup fails. -/
theorem columnMappingLookup_eq_none (key : String)
    (h : ∀ c ∈ allColumns, pyToLower c ≠ key) : columnMappingLookup key = none := by
  unfold columnMappingLookup
  have : COLUMN_MAPPING.reverse.find? (fun p => p.1 == key) = none := by
    rw [List.find?_eq_none]
    intro pair hpair
    have hmem : pair ∈ COLUMN_MAPPING := List.mem_reverse.mp hpair
    obtain ⟨he, hc⟩ := mapping_pairs pair hmem
    have := h pair.2 hc
    rw [allColumns_lower pair.2 hc] at this
    simp [he, this]
  rw [this]; rfl

/-! ### Behaviour of the field-correction function -/

/-- An exact column name is returned unchanged by `correct_column_name`. -/
theorem correct_column_name_of_mem (f : String) (h : f ∈ allColumns) :
    correct_column_name f = f := by
  have hne : f ≠ "" := fun he => empty_not_mem_allColumns (he ▸ h)
  unfold correct_column_name
  rw [if_neg hne, if_pos (mem_values_of_mem_allColumns f h)]

/-- The function `correct_column_name` either leaves the field unchanged or replaces it by
an exact column name of some source. -/
theorem correct_column_name_cases (f : String) :
    correct_column_name f = f ∨ correct_column_name f ∈ allColumns := by
  unfold correct_column_name
  by_cases h0 : f = ""
  · rw [if_pos h0]; exact Or.inl rfl
  rw [if_neg h0]
  by_cases h1 : f ∈ columnMappingValues
  · rw [if_pos h1]; exact Or.inl rfl
  rw [if_neg h1]
  simp only []
  cases hlk : columnMappingLookup (pyToLower f) with
  | some canonical =>
    exact Or.inr (columnMappingLookup_eq_some _ _ hlk).1
  | none =>
    cases hfd : variations.find? (fun pr => substrAux pr.1.toList (pyToLower f).toList) with
    | some pr =>
      exact Or.inr (variations_vals pr (List.mem_of_find?_eq_some hfd))
    | none => exact Or.inl rfl

/-! ### Structure of the validator -/

/-- The first pass never changes a node's `ruleType`. -/
theorem correctRuleItem_ruleType (x : RuleItem) :
    (correctRuleItem x).ruleType = x.ruleType := by
  unfold correctRuleItem; split <;> rfl

/-- The first pass never changes whether a node is a conditionGroup. -/
theorem isGroup_correctRuleItem (x : RuleItem) :
    isGroup (correctRuleItem x) = isGroup x := by
  unfold isGroup; rw [correctRuleItem_ruleType]

/-- Unfolding of the validator on an argument that has a `rules` key. -/
theorem validate_some (r : ParsedRule) (l : List RuleItem) (h : r.rules = some l) :
    validate_and_correct_columns (some r) =
      some { r with rules := some (if (l.map correctRuleItem).any isGroup
                                   then (l.map correctRuleItem).filter isGroup
                                   else l.map correctRuleItem) } := by
  simp only [validate_and_correct_columns, h]

/-- Unfolding of the validator on an argument without a `rules` key. -/
theorem validate_none (r : ParsedRule) (h : r.rules = none) :
    validate_and_correct_columns (some r) = some r := by
  simp only [validate_and_correct_columns, h]

/-- A condition that is valid in the sense of claim C5 references a column of
a known source; such a column is in `allColumns`. -/
theorem condValid_mem (ds fl : Option String) (h : condValid ds fl = true) :
    ∃ f, fl = some f ∧ f ∈ allColumns := by
  unfold condValid at h
  split at h
  · rename_i d f
    split at h
    · exact absurd h (by simp)
    · rename_i cols hls
      have hmemcols : f ∈ cols := by simpa using h
      refine ⟨f, rfl, ?_⟩
      unfold lookupSource at hls
      cases hf : CSV_STRUCTURES.find? (fun p => p.1 == d) with
      | none => rw [hf] at hls; simp at hls
      | some pr =>
        rw [hf] at hls
        simp only [Option.map_some'] at hls
        have hmem : pr ∈ CSV_STRUCTURES := List.mem_of_find?_eq_some hf
        have hcols : pr.2 = cols := Option.some.inj hls
        refine source_cols_sub pr hmem f ?_
        rw [hcols]; exact hmemcols
  · exact absurd h (by simp)

/-- Correcting a C5-valid condition is a no-op. -/
theorem correctCnd_of_valid (c : Cnd) (h : condValid c.dataSource c.field = true) :
    correctCnd c = c := by
  obtain ⟨f, hfl, hmem⟩ := condValid_mem c.dataSource c.field h
  unfold correctCnd
  rw [hfl]
  simp only [Option.getD_some]
  rw [correct_column_name_of_mem f hmem, ← hfl]

/-- Correcting a C5-valid top-level node is a no-op. -/
theorem correctRuleItem_of_valid (x : RuleItem) (h : itemValid x = true) :
    correctRuleItem x = x := by
  unfold itemValid at h
  unfold correctRuleItem
  by_cases hg : isGroup x = true
  · rw [if_pos hg]
    rw [if_pos hg] at h
    cases hcs : x.conditions with
    | none =>
      simp only [Option.map_none']
      rw [← hcs]
    | some cs =>
      rw [hcs] at h
      simp only [Option.getD_some, List.all_eq_true] at h
      simp only [Option.map_some']
      have hmap : cs.map correctCnd = cs := by
        have h1 : cs.map correctCnd = cs.map id :=
          List.map_congr_left (fun c hc => correctCnd_of_valid c (h c hc))
        rw [h1, List.map_id]
      rw [hmap, ← hcs]
  · rw [if_neg hg]
    rw [if_neg hg] at h
    obtain ⟨f, hfl, hmem⟩ := condValid_mem x.dataSource x.field h
    rw [hfl]
    simp only [Option.getD_some]
    rw [correct_column_name_of_mem f hmem, ← hfl]

/-! ### Claim C1 -/

/-- Claim C1 is false of the code: the validator returns, without failing, a
RuleSet whose only (dataSource, field) reference — an unknown source
"nonexistent.csv" with an unknown, uncorrectable field "zzz" — does not
resolve against the Schema Registry.  No failure channel exists in
`validate_and_correct_columns`, and the data source is never examined. -/
theorem c1_counterexample :
    validate_and_correct_columns (some badRuleSet) = some badRuleSet ∧
    refsResolve badRuleSet = false :=
  ⟨by decide, by decide⟩

/-- Claim C1, amended: the validator never fails — it returns a RuleSet for
every non-`None` input — and it performs no reference check; its only
guarantee is best-effort, namely that every field it rewrites becomes an
exact column name of some data source (a field it cannot correct is passed
through unchanged, so unresolved references reach the caller). -/
theorem c1_amended_validator_total_best_effort (r : Option ParsedRule) (f : String) :
    ((validate_and_correct_columns r).isSome ↔ r.isSome) ∧
    (correct_column_name f = f ∨ correct_column_name f ∈ allColumns) := by
  constructor
  · cases r with
    | none => simp [validate_and_correct_columns]
    | some r0 =>
      cases hr : r0.rules with
      | none => simp [validate_none r0 hr]
      | some l => simp [validate_some r0 l hr]
  · exact correct_column_name_cases f

/-- Witness for the amended claim C1 at a concrete unresolvable RuleSet. -/
theorem c1_amended_witness :
    ((validate_and_correct_columns (some badRuleSet)).isSome ↔
      (some badRuleSet : Option ParsedRule).isSome) ∧
    (correct_column_name "zzz" = "zzz" ∨ correct_column_name "zzz" ∈ allColumns) :=
  c1_amended_validator_total_best_effort (some badRuleSet) "zzz"

/-! ### Claim C2 -/

/-- Claim C2 is false of the code: a syntactically valid JSON object without
a `rules` key is not turned into a RuleSet with an empty rule list — the
validator returns the object unchanged — and when the object is non-empty
the downstream conversation logic does not detect "no rule produced": it
stores the object as the current rule and asks for confirmation. -/
theorem c2_counterexample :
    validate_and_correct_columns (some noRulesDict) = some noRulesDict ∧
    noRulesDict.rules ≠ some [] ∧
    (generate_new_rule (fun _ => "") sampleFreshState (some noRulesDict)).current_rule =
      some noRulesDict ∧
    (generate_new_rule (fun _ => "") sampleFreshState (some noRulesDict)).awaiting_confirmation =
      true :=
  ⟨by decide, by decide, by decide, by decide⟩

/-- Claim C2, amended: a valid JSON object lacking a `rules` key does not
hard-fail — the validator passes it through unchanged — and the downstream
conversation logic detects "no rule produced" only when the object is empty
(Python dict falsiness): an empty object takes the failure branch, while a
non-empty object is stored as the current rule. -/
theorem c2_amended_missing_rules_key (r : ParsedRule) (s : SessionState)
    (dumps : ParsedRule → String) (h : r.rules = none) :
    validate_and_correct_columns (some r) = some r ∧
    (r.extra = [] →
      generate_new_rule dumps s (validate_and_correct_columns (some r)) =
        { s with messages := s.messages ++ [ChatMessage.mk "assistant" failText] }) ∧
    (r.extra ≠ [] →
      (generate_new_rule dumps s (validate_and_correct_columns (some r))).current_rule =
        some r ∧
      (generate_new_rule dumps s (validate_and_correct_columns (some r))).awaiting_confirmation =
        true) := by
  have hval : validate_and_correct_columns (some r) = some r := validate_none r h
  refine ⟨hval, ?_, ?_⟩
  · intro hext
    rw [hval]
    simp [generate_new_rule, h, hext]
  · intro hext
    rw [hval]
    simp [generate_new_rule, h, hext]

/-- Witness for the amended claim C2 at the empty JSON object. -/
theorem c2_amended_witness :
    validate_and_correct_columns (some emptyDict) = some emptyDict ∧
    generate_new_rule (fun _ => "") sampleFreshState
        (validate_and_correct_columns (some emptyDict)) =
      { sampleFreshState with
          messages := sampleFreshState.messages ++ [ChatMessage.mk "assistant" failText] } := by
  have h := c2_amended_missing_rules_key emptyDict sampleFreshState (fun _ => "") rfl
  exact ⟨h.1, h.2.1 rfl⟩

/-! ### Claim C10 -/

/-- Claim C10: `correct_column_name` returns a falsy (empty) field name as
is, and the validator sets a condition whose `field` key is missing to the
empty string — both inside conditionGroups and on top-level bare conditions
— rather than inventing a field name. -/
theorem c10_empty_field (c : Cnd) (x : RuleItem) (hc : c.field = none)
    (hx : x.field = none) (hxg : isGroup x = false) :
    correct_column_name "" = "" ∧
    (correctCnd c).field = some "" ∧
    (correctRuleItem x).field = some "" := by
  refine ⟨rfl, ?_, ?_⟩
  · unfold correctCnd
    rw [hc]
    rfl
  · unfold correctRuleItem
    rw [hxg]
    simp only [Bool.false_eq_true, if_false]
    rw [hx]
    rfl

/-- Witness for claim C10 at concrete conditions with a missing field key. -/
theorem c10_witness :
    correct_column_name "" = "" ∧
    (correctCnd emptyFieldCnd).field = some "" ∧
    (correctRuleItem emptyFieldItem).field = some "" :=
  c10_empty_field emptyFieldCnd emptyFieldItem rfl rfl (by decide)

/-! ### Claim C5 -/

/-- Claim C5: validation is idempotent on valid input.  If every rule node
references a present field that is an exact column name of its known data
source, and no top-level bare condition coexists with a conditionGroup, the
validator returns the RuleSet unchanged. -/
theorem c5_idempotent_on_valid (r : ParsedRule) (l : List RuleItem)
    (h : r.rules = some l)
    (hvalid : ∀ x ∈ l, itemValid x = true)
    (hprune : (∃ x ∈ l, isGroup x = true) → ∀ x ∈ l, isGroup x = true) :
    validate_and_correct_columns (some r) = some r := by
  have hmap : l.map correctRuleItem = l := by
    have h1 : l.map correctRuleItem = l.map id :=
      List.map_congr_left (fun x hx => correctRuleItem_of_valid x (hvalid x hx))
    rw [h1, List.map_id]
  rw [validate_some r l h, hmap]
  cases hany : l.any isGroup with
  | false =>
    simp only [Bool.false_eq_true, if_false]
    rw [← h]
  | true =>
    simp only [if_true]
    have hall : ∀ x ∈ l, isGroup x = true :=
      hprune (by simpa using List.any_eq_true.mp hany)
    rw [List.filter_eq_self.mpr hall, ← h]

/-- Witness for claim C5 at a concrete valid RuleSet. -/
theorem c5_witness :
    validate_and_correct_columns (some validRuleSet) = some validRuleSet :=
  c5_idempotent_on_valid validRuleSet [sampleGroupValid] rfl (by decide) (by decide)

/-! ### Claim C4 -/

/-- Claim C4: when at least one top-level conditionGroup is present, the
validator's output rules list is exactly the conditionGroup nodes of the
input, in their original relative order (each carrying its in-place field
corrections), with every top-level bare condition discarded and every
retained node a conditionGroup; when no conditionGroup is present, the
membership of the rules list is unchanged (again up to the in-place field
corrections). -/
theorem c4_toplevel_pruning (r : ParsedRule) (l : List RuleItem)
    (h : r.rules = some l) :
    ∃ r', validate_and_correct_columns (some r) = some r' ∧
      (l.any isGroup = true →
        r'.rules = some ((l.filter isGroup).map correctRuleItem) ∧
        ∀ y ∈ (l.filter isGroup).map correctRuleItem, isGroup y = true) ∧
      (l.any isGroup = false → r'.rules = some (l.map correctRuleItem)) := by
  have hfun : (isGroup ∘ correctRuleItem) = isGroup := funext isGroup_correctRuleItem
  have hany : (l.map correctRuleItem).any isGroup = l.any isGroup := by
    rw [List.any_map, hfun]
  have hfilt : (l.map correctRuleItem).filter isGroup = (l.filter isGroup).map correctRuleItem := by
    rw [List.filter_map, hfun]
  refine ⟨_, validate_some r l h, ?_, ?_⟩
  · intro hg
    constructor
    · simp only [hany, hg, if_true, hfilt]
    · intro y hy
      obtain ⟨x, hx, rfl⟩ := List.mem_map.mp hy
      rw [isGroup_correctRuleItem]
      exact List.of_mem_filter hx
  · intro hg
    simp only [hany, hg, Bool.false_eq_true, if_false]

/-- Witness for claim C4: a RuleSet with one top-level bare condition and one
conditionGroup validates to a RuleSet containing only the conditionGroup. -/
theorem c4_witness :
    ∃ r', validate_and_correct_columns (some mixedRuleSet) = some r' ∧
      r'.rules = some [correctRuleItem sampleGroupValid] := by
  obtain ⟨r', hv, hg, _⟩ :=
    c4_toplevel_pruning mixedRuleSet [sampleBareValid, sampleGroupValid] rfl
  refine ⟨r', hv, ?_⟩
  rw [(hg (by decide)).1]
  rfl

/-! ### Claim C6 -/

/-- Claim C6: the validator changes only condition `field` values and the
membership of the top-level rules list.  Every node retained in the output
comes from an input node with identical id, dataSource, eligibilityPeriod,
function, operator, value, priority, ruleType and connector, and with
conditions whose nine non-`field` keys are likewise identical. -/
theorem c6_frame_preservation (r : ParsedRule) (l : List RuleItem)
    (h : r.rules = some l) :
    ∃ r' l', validate_and_correct_columns (some r) = some r' ∧ r'.rules = some l' ∧
      ∀ y ∈ l', ∃ x ∈ l, itemScalars y = itemScalars x ∧
        y.conditions.map (fun cs => cs.map cndScalars) =
          x.conditions.map (fun cs => cs.map cndScalars) := by
  have hscal : ∀ x : RuleItem, itemScalars (correctRuleItem x) = itemScalars x := by
    intro x
    unfold correctRuleItem
    split <;> rfl
  have hcondscal : ∀ x : RuleItem,
      (correctRuleItem x).conditions.map (fun cs => cs.map cndScalars) =
        x.conditions.map (fun cs => cs.map cndScalars) := by
    intro x
    unfold correctRuleItem
    split
    · cases hcs : x.conditions with
      | none => rfl
      | some cs =>
        simp only [Option.map_some', List.map_map]
        rfl
    · rfl
  refine ⟨_, _, validate_some r l h, rfl, ?_⟩
  intro y hy
  have hy' : y ∈ l.map correctRuleItem := by
    by_cases hany : (l.map correctRuleItem).any isGroup = true
    · rw [if_pos hany] at hy
      exact List.mem_of_mem_filter hy
    · rw [if_neg hany] at hy
      exact hy
  obtain ⟨x, hx, rfl⟩ := List.mem_map.mp hy'
  exact ⟨x, hx, hscal x, hcondscal x⟩

/-- Witness for claim C6 at a concrete mixed RuleSet. -/
theorem c6_witness :
    ∃ r' l', validate_and_correct_columns (some mixedRuleSet) = some r' ∧
      r'.rules = some l' ∧
      ∀ y ∈ l', ∃ x ∈ [sampleBareValid, sampleGroupValid], itemScalars y = itemScalars x ∧
        y.conditions.map (fun cs => cs.map cndScalars) =
          x.conditions.map (fun cs => cs.map cndScalars) :=
  c6_frame_preservation mixedRuleSet [sampleBareValid, sampleGroupValid] rfl

/-! ### Claim C3 -/

/-- The Python substring test decides list-infix containment. -/
theorem substrAux_iff (n l : List Char) : substrAux n l = true ↔ n <:+: l := by
  induction l with
  | nil =>
    simp only [substrAux, List.isEmpty_iff]
    constructor
    · intro h; rw [h]
    · intro h; exact List.eq_nil_of_infix_nil h
  | cons c rest ih =>
    simp only [substrAux, Bool.or_eq_true, List.isPrefixOf_iff_prefix, ih,
      List.infix_cons_iff]

/-- Claim C3: for a non-empty field name that is not an exact column name,
`correct_column_name` first tries the case-insensitive lookup (a field that
lowercases to a known column is corrected to that column, which in this
registry is the lowercased name itself); when no case-insensitive match
exists, the first alias of the fixed table — in its fixed order — whose key
is a substring of the lowercased name determines the replacement; and when no
alias key is a substring, the field is returned unchanged. -/
theorem c3_field_correction (f : String) (h1 : f ≠ "") (h2 : f ∉ columnMappingValues) :
    (pyToLower f ∈ allColumns → correct_column_name f = pyToLower f) ∧
    ((∀ col ∈ allColumns, pyToLower col ≠ pyToLower f) →
      (∀ v1 v2 pr, variations = v1 ++ pr :: v2 →
        pySubstr pr.1 (pyToLower f) = true →
        (∀ x ∈ v1, pySubstr x.1 (pyToLower f) = false) →
        correct_column_name f = pr.2) ∧
      ((∀ pr ∈ variations, pySubstr pr.1 (pyToLower f) = false) →
        correct_column_name f = f)) := by
  constructor
  · intro hmem
    have hlk := columnMappingLookup_of_mem (pyToLower f) hmem
    unfold correct_column_name
    rw [if_neg h1, if_neg h2]
    simp only [hlk]
  · intro hnomatch
    have hcols : ∀ col ∈ allColumns, pyToLower col ≠ pyToLower f := hnomatch
    have hlk : columnMappingLookup (pyToLower f) = none :=
      columnMappingLookup_eq_none (pyToLower f) hcols
    constructor
    · intro v1 v2 pr hdecomp hpr hv1
      have hfind : variations.find?
          (fun q => substrAux q.1.toList (pyToLower f).toList) = some pr := by
        rw [hdecomp]
        exact find?_first _ v1 v2 pr (fun x hx => hv1 x hx) hpr
      unfold correct_column_name
      rw [if_neg h1, if_neg h2]
      simp only [hlk, hfind]
    · intro hall
      have hfind : variations.find?
          (fun q => substrAux q.1.toList (pyToLower f).toList) = none := by
        rw [List.find?_eq_none]
        intro q hq
        simp only [Bool.not_eq_true]
        exact hall q hq
      unfold correct_column_name
      rw [if_neg h1, if_neg h2]
      simp only [hlk, hfind]

/-- Witness for claim C3: the field "Credit_Score", which differs from the
column "credit_score" only in letter case, is corrected to it. -/
theorem c3_witness : correct_column_name "Credit_Score" = pyToLower "Credit_Score" :=
  (c3_field_correction "Credit_Score" (by decide) (by decide)).1 (by decide)

/-! ### Claim C9 -/

/-- Claim C9: a failed generation attempt — a transport error, a response
without an extractable JSON span, or a JSON parse failure — is atomic at the
conversation boundary: the attempt yields no rule, exactly one
assistant-facing failure message is appended, the current rule keeps its
prior value, and the phase is exactly the phase active before the attempt. -/
theorem c9_failure_atomic (dumps : ParsedRule → String) (s : SessionState)
    (api : ApiResult) (parseJson : String → Option (Option ParsedRule))
    (h : api = ApiResult.error ∨
         (∃ c, api = ApiResult.ok c ∧ extract_json_span c = none) ∨
         (∃ c j, api = ApiResult.ok c ∧ extract_json_span c = some j ∧ parseJson j = none)) :
    generate_rule_with_llama api parseJson = none ∧
    (generate_new_rule dumps s (generate_rule_with_llama api parseJson)).messages =
      s.messages ++ [ChatMessage.mk "assistant" failText] ∧
    (generate_new_rule dumps s (generate_rule_with_llama api parseJson)).current_rule =
      s.current_rule ∧
    phase (generate_new_rule dumps s (generate_rule_with_llama api parseJson)) = phase s := by
  have hnone : generate_rule_with_llama api parseJson = none := by
    rcases h with rfl | ⟨c, rfl, hc⟩ | ⟨c, j, rfl, hc, hj⟩
    · rfl
    · simp [generate_rule_with_llama, hc]
    · simp [generate_rule_with_llama, hc, hj]
  rw [hnone]
  exact ⟨rfl, rfl, rfl, rfl⟩

/-- Witness for claim C9 at a concrete transport failure. -/
theorem c9_witness :
    generate_rule_with_llama ApiResult.error (fun _ => none) = none ∧
    (generate_new_rule (fun _ => "") sampleConfirmState
        (generate_rule_with_llama ApiResult.error (fun _ => none))).messages =
      sampleConfirmState.messages ++ [ChatMessage.mk "assistant" failText] ∧
    (generate_new_rule (fun _ => "") sampleConfirmState
        (generate_rule_with_llama ApiResult.error (fun _ => none))).current_rule =
      sampleConfirmState.current_rule ∧
    phase (generate_new_rule (fun _ => "") sampleConfirmState
        (generate_rule_with_llama ApiResult.error (fun _ => none))) =
      phase sampleConfirmState :=
  c9_failure_atomic (fun _ => "") sampleConfirmState ApiResult.error (fun _ => none)
    (Or.inl rfl)

/-! ### Claim C8 -/

/-- Claim C8: in the confirmation phase, a user reply whose cleaned text
contains "yes" or "correct" as a case-insensitive substring confirms the rule
(confirmed becomes true, phase becomes IDLE_WITH_RULE); any other reply moves
the conversation to AWAITING_MODIFICATION.  In either case exactly one
assistant message is appended after the user's, and the current rule is
unchanged. -/
theorem c8_confirmation_phase (dumps : ParsedRule → String)
    (genResult : Option ParsedRule) (s : SessionState) (prompt : String)
    (h1 : s.user_prompt ≠ "") (h2 : s.awaiting_confirmation = true)
    (h3 : s.awaiting_modification = false) :
    (handle_chat_input dumps genResult s prompt).current_rule = s.current_rule ∧
    (∃ m : ChatMessage, m.role = "assistant" ∧
      (handle_chat_input dumps genResult s prompt).messages =
        s.messages ++ [ChatMessage.mk "user" (clean_user_input prompt), m]) ∧
    ((pySubstr "yes" (pyToLower (clean_user_input prompt)) ||
      pySubstr "correct" (pyToLower (clean_user_input prompt))) = true →
      (handle_chat_input dumps genResult s prompt).confirmed = true ∧
      phase (handle_chat_input dumps genResult s prompt) = Phase.IDLE_WITH_RULE) ∧
    ((pySubstr "yes" (pyToLower (clean_user_input prompt)) ||
      pySubstr "correct" (pyToLower (clean_user_input prompt))) = false →
      phase (handle_chat_input dumps genResult s prompt) = Phase.AWAITING_MODIFICATION) := by
  have key : handle_chat_input dumps genResult s prompt =
      handle_user_confirmation
        { s with messages := s.messages ++ [ChatMessage.mk "user" (clean_user_input prompt)] }
        (pySubstr "yes" (pyToLower (clean_user_input prompt)) ||
         pySubstr "correct" (pyToLower (clean_user_input prompt))) := by
    unfold handle_chat_input
    rw [if_neg h1, if_pos h2]
    cases hcond : (pySubstr "yes" (pyToLower (clean_user_input prompt)) ||
        pySubstr "correct" (pyToLower (clean_user_input prompt))) with
    | true => rw [if_pos rfl]
    | false => rw [if_neg (by simp)]
  rw [key]
  cases hcond : (pySubstr "yes" (pyToLower (clean_user_input prompt)) ||
      pySubstr "correct" (pyToLower (clean_user_input prompt))) with
  | true =>
    refine ⟨rfl, ⟨ChatMessage.mk "assistant" "Great! Here\x27s your final rule:", rfl, ?_⟩,
      fun _ => ⟨rfl, ?_⟩, fun hfalse => by simp at hfalse⟩
    · simp [handle_user_confirmation]
    · simp [handle_user_confirmation, phase, h3]
  | false =>
    refine ⟨rfl,
      ⟨ChatMessage.mk "assistant" "What changes would you like to make to the rule?", rfl, ?_⟩,
      fun htrue => by simp at htrue, fun _ => ?_⟩
    · simp [handle_user_confirmation]
    · simp [handle_user_confirmation, phase]

/-- Witness for claim C8: an affirmative reply in the confirmation phase
confirms the rule and reaches IDLE_WITH_RULE. -/
theorem c8_witness :
    (handle_chat_input (fun _ => "") none sampleConfirmState "yes").confirmed = true ∧
    phase (handle_chat_input (fun _ => "") none sampleConfirmState "yes") =
      Phase.IDLE_WITH_RULE := by
  have h := c8_confirmation_phase (fun _ => "") none sampleConfirmState "yes"
    (by decide) (by decide) (by decide)
  exact h.2.2.1 (by decide)

/-! ### Claim C7 -/

/-- The function `pyFindChar` fails exactly when the character does not occur. -/
theorem pyFindChar_eq_none (l : List Char) (t : Char) :
    pyFindChar l t = none ↔ ∀ c ∈ l, c ≠ t := by
  induction l with
  | nil => simp [pyFindChar]
  | cons c cs ih =>
    by_cases hc : c = t
    · simp only [pyFindChar, if_pos hc]
      constructor
      · intro h; exact Option.noConfusion h
      · intro h; exact absurd hc (h c (List.mem_cons_self c cs))
    · simp only [pyFindChar, if_neg hc, Option.map_eq_none', ih]
      constructor
      · intro h x hx
        rcases List.mem_cons.mp hx with rfl | hx2
        · exact hc
        · exact h x hx2
      · intro h x hx
        exact h x (List.mem_cons_of_mem c hx)

/-- A successful `pyFindChar` returns the index of the first occurrence. -/
theorem pyFindChar_spec (t : Char) :
    ∀ (l : List Char) (i : Nat), pyFindChar l t = some i →
      i < l.length ∧ l[i]? = some t ∧ ∀ c ∈ l.take i, c ≠ t := by
  intro l
  induction l with
  | nil => intro i h; simp [pyFindChar] at h
  | cons c cs ih =>
    intro i h
    by_cases hc : c = t
    · rw [pyFindChar, if_pos hc] at h
      have hi : i = 0 := (Option.some.inj h).symm
      subst hi
      exact ⟨by simp, by simpa using hc, by simp⟩
    · rw [pyFindChar, if_neg hc] at h
      cases hn : pyFindChar cs t with
      | none => rw [hn] at h; exact Option.noConfusion h
      | some n =>
        rw [hn] at h
        simp only [Option.map_some'] at h
        have hi : i = n + 1 := (Option.some.inj h).symm
        subst hi
        obtain ⟨h1, h2, h3⟩ := ih n hn
        refine ⟨by simp; omega, by simpa using h2, ?_⟩
        intro x hx
        rw [List.take_succ_cons] at hx
        rcases List.mem_cons.mp hx with rfl | hx2
        · exact hc
        · exact h3 x hx2

/-- A successful `pyFindChar` on the reversed list locates the last
occurrence: the character is at index `length - 1 - k` and does not occur
after it. -/
theorem pyRFind_spec (l : List Char) (t : Char) (k : Nat)
    (h : pyFindChar l.reverse t = some k) :
    k < l.length ∧ l[l.length - 1 - k]? = some t ∧
      ∀ c ∈ l.drop (l.length - k), c ≠ t := by
  obtain ⟨h1, h2, h3⟩ := pyFindChar_spec t l.reverse k h
  rw [List.length_reverse] at h1
  refine ⟨h1, ?_, ?_⟩
  · rw [← List.getElem?_reverse h1]
    exact h2
  · have hdrop : (l.reverse.take k).reverse = l.drop (l.length - k) := by
      rw [List.take_reverse, List.reverse_reverse]
    intro c hc
    rw [← hdrop] at hc
    exact h3 c (List.mem_reverse.mp hc)

/-- Unfolding of the extraction when both braces are found. -/
theorem extract_json_span_eq_some (s : String) (i k : Nat)
    (hf : pyFindChar s.toList '{' = some i)
    (hk : pyFindChar s.toList.reverse '}' = some k) :
    extract_json_span s =
      some (String.mk ((s.toList.drop i).take (s.toList.length - 1 - k + 1 - i))) := by
  unfold extract_json_span
  rw [hf, hk]

/-- Claim C7: rule generation extracts exactly the substring reaching from
the first `{` of the model response to its last `}` — the response splits as
a prefix part without `{`, the extracted span (beginning with `{` and ending
with `}` whenever it is non-empty), and a tail part without `}` — and a
response missing `{` or missing `}` yields no extraction and no rule. -/
theorem c7_span_extraction (s : String)
    (parseJson : String → Option (Option ParsedRule)) :
    (('{' ∉ s.toList ∨ '}' ∉ s.toList) →
      extract_json_span s = none ∧
      generate_rule_with_llama (ApiResult.ok s) parseJson = none) ∧
    (∀ t, extract_json_span s = some t →
      ∃ p q, s.toList = p ++ t.toList ++ q ∧
        (∀ c ∈ p, c ≠ '{') ∧ (∀ c ∈ q, c ≠ '}') ∧
        (t.toList ≠ [] → t.toList.head? = some '{' ∧ t.toList.getLast? = some '}')) := by
  constructor
  · intro hmiss
    have hnone : extract_json_span s = none := by
      rcases hmiss with hm | hm
      · have hf : pyFindChar s.toList '{' = none :=
          (pyFindChar_eq_none _ _).mpr (fun c hc he => hm (he ▸ hc))
        unfold extract_json_span
        rw [hf]
      · have hk : pyFindChar s.toList.reverse '}' = none :=
          (pyFindChar_eq_none _ _).mpr
            (fun c hc he => hm (he ▸ List.mem_reverse.mp hc))
        unfold extract_json_span
        rw [hk]
        cases pyFindChar s.toList '{' <;> rfl
    refine ⟨hnone, ?_⟩
    simp only [generate_rule_with_llama, hnone]
  · intro t ht
    cases hf : pyFindChar s.toList '{' with
    | none =>
      unfold extract_json_span at ht
      rw [hf] at ht
      cases hk : pyFindChar s.toList.reverse '}' with
      | none => rw [hk] at ht; exact Option.noConfusion ht
      | some k => rw [hk] at ht; exact Option.noConfusion ht
    | some i =>
      cases hk : pyFindChar s.toList.reverse '}' with
      | none =>
        unfold extract_json_span at ht
        rw [hf, hk] at ht
        exact Option.noConfusion ht
      | some k =>
        rw [extract_json_span_eq_some s i k hf hk] at ht
        have htt : t.toList =
            (s.toList.drop i).take (s.toList.length - 1 - k + 1 - i) := by
          rw [← Option.some.inj ht]
          rfl
        obtain ⟨hi1, hi2, hi3⟩ := pyFindChar_spec '{' s.toList i hf
        obtain ⟨hk1, hk2, hk3⟩ := pyRFind_spec s.toList '}' k hk
        by_cases hij : i ≤ s.toList.length - 1 - k
        · -- the first brace precedes the last one: the slice is the span
          refine ⟨s.toList.take i, s.toList.drop (s.toList.length - 1 - k + 1),
            ?_, hi3, ?_, ?_⟩
          · have h2 : (s.toList.drop i).take (s.toList.length - 1 - k + 1 - i) ++
                (s.toList.drop i).drop (s.toList.length - 1 - k + 1 - i) =
                  s.toList.drop i := List.take_append_drop _ _
            have h3 : (s.toList.drop i).drop (s.toList.length - 1 - k + 1 - i) =
                s.toList.drop (s.toList.length - 1 - k + 1) := by
              rw [List.drop_drop]
              congr 1
              omega
            have hconcat : s.toList.take i ++
                ((s.toList.drop i).take (s.toList.length - 1 - k + 1 - i) ++
                  s.toList.drop (s.toList.length - 1 - k + 1)) = s.toList := by
              rw [← h3, h2, List.take_append_drop]
            rw [htt, List.append_assoc]
            exact hconcat.symm
          · intro c hc
            have hidx : s.toList.length - 1 - k + 1 = s.toList.length - k := by omega
            rw [hidx] at hc
            exact hk3 c hc
          · intro _
            have hlen : t.toList.length = s.toList.length - 1 - k + 1 - i := by
              rw [htt, List.length_take, List.length_drop]
              omega
            constructor
            · rw [List.head?_eq_getElem?, htt]
              rw [List.getElem?_take_of_lt (by omega)]
              rw [List.getElem?_drop]
              simpa using hi2
            · rw [List.getLast?_eq_getElem?, hlen, htt]
              rw [List.getElem?_take_of_lt (by omega)]
              rw [List.getElem?_drop]
              have hidx2 : i + (s.toList.length - 1 - k + 1 - i - 1) =
                  s.toList.length - 1 - k := by omega
              rw [hidx2]
              exact hk2
        · -- the last brace precedes the first one: the slice is empty
          have hempty : t.toList = [] := by
            rw [htt]
            have : s.toList.length - 1 - k + 1 - i = 0 := by omega
            rw [this, List.take_zero]
          refine ⟨s.toList.take i, s.toList.drop i, ?_, hi3, ?_, ?_⟩
          · rw [hempty, List.append_nil, List.take_append_drop]
          · intro c hc
            have hsplit : s.toList.drop i =
                (s.toList.drop (s.toList.length - k)).drop (i - (s.toList.length - k)) := by
              rw [List.drop_drop]
              congr 1
              omega
            rw [hsplit] at hc
            exact hk3 c (List.mem_of_mem_drop hc)
          · intro hne
            exact absurd hempty hne

/-- Witness for claim C7: a response without braces produces no extraction
and no rule. -/
theorem c7_witness :
    extract_json_span "plain prose with no json" = none ∧
    generate_rule_with_llama (ApiResult.ok "plain prose with no json") (fun _ => none) =
      none :=
  (c7_span_extraction "plain prose with no json" (fun _ => none)).1 (Or.inl (by decide))
